import Mathlib

/-
Verification of the apio package-resolution / environment-composition engine
(src/apio/util.py) and the streaming downloader (src/apio/managers/downloader.py),
as a shallow embedding in Lean 4.

Conventions of the embedding:
* The process search path (the PATH environment variable) is represented by the
  list of its os.pathsep-separated entries; prepending an entry with
  os.pathsep.join([entry, path]) is list cons.
* Filesystem probes (os.path.isdir, Path.exists) are a parameter
  pathExists : String -> Bool; the filesystem contents written by the downloader
  are an association list from path to file data.
* Python exceptions are modelled with Except; the exception kinds that can
  escape the modelled functions are collected in small inductive types.
* str(Path(a) / b) for the strings produced by this code (no trailing
  separators) is pathJoin below; note str(Path("") / "bin") = "bin" because
  Path("") is Path(".").
-/

deriving instance DecidableEq for Except

namespace Apio

/-- Package name constant OSS_CAD_SUITE from util.py. -/
def OSS_CAD_SUITE : String := "oss-cad-suite"

/-- Package name constant GTKWAVE from util.py. -/
def GTKWAVE : String := "gtkwave"

/-- Package name constant ICOPROG from util.py. -/
def ICOPROG : String := "icoprog"

/-- Name of the subfolder that stores the executable files. -/
def BIN : String := "bin"

/-- Folder name for the oss-cad-suite package. -/
def OSS_CAD_SUITE_FOLDER : String := "tools-" ++ OSS_CAD_SUITE

/-- Folder name for the gtkwave package. -/
def GTKWAVE_FOLDER : String := "tool-" ++ GTKWAVE

/-- Folder name for the icoprog package. -/
def ICOPROG_FOLDER : String := "tool-" ++ ICOPROG

/-- str(Path(a) / b) for the path strings this program builds: Path("") is
Path("."), and joining Path(".") with a relative component drops the dot, so
the result is just the component; otherwise a separator is inserted. -/
def pathJoin (base comp : String) : String :=
  if base = "" then comp else base ++ "/" ++ comp

/-- The dict {OSS_CAD_SUITE: _, GTKWAVE: _, ICOPROG: _} built by get_base_dir
and get_bin_dir_table: a fixed-key table from package name to a directory
string, in dict insertion order oss-cad-suite, gtkwave, icoprog. -/
structure PkgTable where
  ossCadSuite : String
  gtkwave : String
  icoprog : String
deriving DecidableEq

/-- Python dict .get(name) on the fixed three-key table: Some value for the
three known keys, none otherwise. -/
def PkgTable.find? (t : PkgTable) (name : String) : Option String :=
  if name = OSS_CAD_SUITE then some t.ossCadSuite
  else if name = GTKWAVE then some t.gtkwave
  else if name = ICOPROG then some t.icoprog
  else none

/-- get_package_dir(pkg_name): the package dir is pkg_home_dir/packages/pkg_name
if that path exists on the filesystem, and the empty string otherwise.
pkg_home_dir (the APIO_PKG_DIR override or the apio home directory) is resolved
by a collaborator and is a parameter here; the filesystem probe
Path.exists is the parameter pathExists. -/
def get_package_dir (pathExists : String → Bool) (pkgHomeDir pkgName : String) : String :=
  let packageDir := pathJoin (pathJoin pkgHomeDir "packages") pkgName
  if pathExists packageDir then packageDir else ""

/-- get_base_dir(): the table with the local install paths of the three apio
packages; a package that is not installed gets the empty string. -/
def get_base_dir (pathExists : String → Bool) (pkgHomeDir : String) : PkgTable :=
  { ossCadSuite := get_package_dir pathExists pkgHomeDir OSS_CAD_SUITE_FOLDER
    gtkwave := get_package_dir pathExists pkgHomeDir GTKWAVE_FOLDER
    icoprog := get_package_dir pathExists pkgHomeDir ICOPROG_FOLDER }

/-- get_bin_dir_table(base_dir): for every package, str(Path(base_dir[p]) / "bin").
Note that for a package that is not installed (base dir "") this is the
non-empty string "bin". -/
def get_bin_dir_table (base : PkgTable) : PkgTable :=
  { ossCadSuite := pathJoin base.ossCadSuite BIN
    gtkwave := pathJoin base.gtkwave BIN
    icoprog := pathJoin base.icoprog BIN }

/-- The slice of the process environment that set_env_variables touches:
the PATH entry list and the four extra toolchain variables (absent = not set). -/
structure Env where
  PATH : List String
  IVL : Option String
  ICEBOX : Option String
  TRELLIS : Option String
  YOSYS_LIB : Option String
deriving DecidableEq

/-- set_env_variables(base_dir, bin_dir): prepends package binary folders to the
PATH (first prepended = lowest priority) and sets the four extra variables.
The Python loop for pack in base_dir iterates the fixed three-key dict in
insertion order (oss-cad-suite, gtkwave, icoprog) and is unrolled here;
the oss-cad-suite entry is skipped by the pack != OSS_CAD_SUITE test.
isWindows models platform.system() == "Windows". -/
def set_env_variables (base bin : PkgTable) (isWindows : Bool) (env : Env) : Env :=
  let path := env.PATH
  -- windows only: gtkwave and icoprog helper prepends; the condition tests the
  -- bin_dir entry (which is "bin", non-empty, when the package is missing)
  let path := if isWindows ∧ bin.gtkwave ≠ "" then bin.gtkwave :: path else path
  let path := if isWindows ∧ bin.icoprog ≠ "" then bin.icoprog :: path else path
  -- generic loop over base_dir, skipping oss-cad-suite, testing base_dir[pack]
  let path := if base.gtkwave ≠ "" then bin.gtkwave :: path else path
  let path := if base.icoprog ≠ "" then bin.icoprog :: path else path
  -- oss-cad-suite last: lib folder then bin folder (maximum priority)
  let path := if base.ossCadSuite ≠ "" then
      bin.ossCadSuite :: pathJoin base.ossCadSuite "lib" :: path
    else path
  { PATH := path
    IVL := some (pathJoin (pathJoin base.ossCadSuite "lib") "ivl")
    ICEBOX := some (pathJoin (pathJoin base.ossCadSuite "share") "icebox")
    TRELLIS := some (pathJoin (pathJoin base.ossCadSuite "share") "trellis")
    YOSYS_LIB := some (pathJoin (pathJoin base.ossCadSuite "share") "yosys") }

/-- Splits a character list at every occurrence of the separator; mirrors
Python str.split(sep). Always returns at least one (possibly empty) part. -/
def splitOnChar (c : Char) : List Char → List (List Char)
  | [] => [[]]
  | x :: xs =>
    match splitOnChar c xs with
    | [] => [[]]
    | r :: rs => if x == c then [] :: r :: rs else (x :: r) :: rs

/-- Splits a character list at the first occurrence of the separator, returning
the part before it and, when the separator occurs, the part after it. -/
def splitFirst (c : Char) : List Char → List Char × Option (List Char)
  | [] => ([], none)
  | x :: xs =>
    if x == c then ([], some xs)
    else
      let r := splitFirst c xs
      (x :: r.1, r.2)

/-- Value of a (non-empty, all-digit) decimal digit list. -/
def digitsToNat (l : List Char) : Nat :=
  l.foldl (fun a c => a * 10 + (c.toNat - 48)) 0

/-- A numeric version field: non-empty, all digits, no leading zero. -/
def isNumField : List Char → Bool
  | [] => false
  | ['0'] => true
  | '0' :: _ :: _ => false
  | l => l.all Char.isDigit

/-- Parses a numeric version field (major, minor or patch). -/
def parseNumField (l : List Char) : Option Nat :=
  if isNumField l then some (digitsToNat l) else none

/-- A pre-release or build identifier: non-empty, ASCII alphanumerics and
hyphens. -/
def isIdentChar (c : Char) : Bool :=
  c.isAlphanum || c == '-'

/-- Parses a dot-separated pre-release or build identifier list. -/
def parseIdents (l : List Char) : Option (List String) :=
  let parts := splitOnChar '.' l
  if parts.all (fun p => !p.isEmpty && p.all isIdentChar) then
    some (parts.map (fun p => String.mk p))
  else none

/-- Modelled from the spec: a parsed semantic version, major.minor.patch with
optional pre-release and build metadata (the Version values of the external
semantic_version library, which is not part of this repository). -/
structure SemVer where
  major : Nat
  minor : Nat
  patch : Nat
  prerelease : List String
  build : List String
deriving DecidableEq

/-- Modelled from the spec: semantic_version.Version(s) on a character list.
Build metadata follows the first plus sign, the pre-release part follows the
first hyphen before it, and the core must be exactly three numeric
dot-separated fields. Returns none exactly when the string does not parse as
a valid semantic version. -/
def versionParseL (l : List Char) : Option SemVer :=
  let core1 := splitFirst '+' l
  let core2 := splitFirst '-' core1.1
  match splitOnChar '.' core2.1 with
  | [ma, mi, pa] =>
    match parseNumField ma, parseNumField mi, parseNumField pa with
    | some major, some minor, some patch =>
      let pre := match core2.2 with
        | none => some []
        | some p => parseIdents p
      let bld := match core1.2 with
        | none => some []
        | some b => parseIdents b
      match pre, bld with
      | some prerelease, some build => some ⟨major, minor, patch, prerelease, build⟩
      | _, _ => none
    | _, _, _ => none
  | _ => none

/-- Modelled from the spec: semantic_version.Version(s); none when the string
is not a valid semantic version (ValueError in the library). -/
def versionParse (s : String) : Option SemVer :=
  versionParseL s.data

/-- Is the identifier purely numeric? (Numeric identifiers compare numerically
and rank below alphanumeric ones in semantic-version precedence.) -/
def identIsNum (l : List Char) : Bool :=
  !l.isEmpty && l.all Char.isDigit

/-- Lexicographic (code-point) order on character lists. -/
def lexLt : List Char → List Char → Bool
  | [], [] => false
  | [], _ :: _ => true
  | _ :: _, [] => false
  | a :: as, b :: bs => if a == b then lexLt as bs else decide (a.toNat < b.toNat)

/-- Precedence order on single pre-release identifiers. -/
def identLt (a b : String) : Bool :=
  if identIsNum a.data && identIsNum b.data then
    decide (digitsToNat a.data < digitsToNat b.data)
  else if identIsNum a.data then true
  else if identIsNum b.data then false
  else lexLt a.data b.data

/-- Precedence order on two non-empty pre-release field lists: field by field,
a shorter list that is a prefix of the other ranks lower. -/
def preFieldsLt : List String → List String → Bool
  | [], [] => false
  | [], _ :: _ => true
  | _ :: _, [] => false
  | x :: xs, y :: ys => if x == y then preFieldsLt xs ys else identLt x y

/-- Modelled from the spec: semantic-version precedence order. A version with
pre-release fields ranks below the same version without them; build metadata
is ignored. -/
def semverLt (a b : SemVer) : Bool :=
  if a.major ≠ b.major then decide (a.major < b.major)
  else if a.minor ≠ b.minor then decide (a.minor < b.minor)
  else if a.patch ≠ b.patch then decide (a.patch < b.patch)
  else
    match a.prerelease, b.prerelease with
    | [], _ => false
    | _ :: _, [] => true
    | as, bs => preFieldsLt as bs

/-- Precedence equality (build metadata ignored). -/
def semverEqP (a b : SemVer) : Bool :=
  a.major == b.major && a.minor == b.minor && a.patch == b.patch &&
    a.prerelease == b.prerelease

/-- Comparison operator of a constraint clause. -/
inductive CmpOp where
  | lt
  | le
  | eq
  | ne
  | ge
  | gt
  | caret
  | tilde
deriving DecidableEq

/-- One comma-separated clause of a constraint expression. -/
structure SpecClause where
  op : CmpOp
  ver : SemVer
deriving DecidableEq

/-- Modelled from the spec: a parsed constraint expression of the external
semantic_version library (SimpleSpec), a comma-separated AND-composition of
comparison clauses. -/
def SimpleSpec : Type := List SpecClause

instance : DecidableEq SimpleSpec := by
  unfold SimpleSpec
  infer_instance

/-- Parses one constraint clause: an optional comparison operator followed by
a version. An empty clause (in particular the empty constraint string) has no
version and fails to parse. -/
def parseClause (cl : List Char) : Option SpecClause :=
  let opRest : CmpOp × List Char :=
    match cl with
    | '>' :: '=' :: r => (CmpOp.ge, r)
    | '<' :: '=' :: r => (CmpOp.le, r)
    | '=' :: '=' :: r => (CmpOp.eq, r)
    | '!' :: '=' :: r => (CmpOp.ne, r)
    | '>' :: r => (CmpOp.gt, r)
    | '<' :: r => (CmpOp.lt, r)
    | '=' :: r => (CmpOp.eq, r)
    | '^' :: r => (CmpOp.caret, r)
    | '~' :: r => (CmpOp.tilde, r)
    | r => (CmpOp.eq, r)
  match versionParseL opRest.2 with
  | none => none
  | some v => some ⟨opRest.1, v⟩

/-- Parses every clause; any failing clause fails the whole constraint. -/
def parseClauses : List (List Char) → Option (List SpecClause)
  | [] => some []
  | c :: cs =>
    match parseClause c, parseClauses cs with
    | some x, some xs => some (x :: xs)
    | _, _ => none

/-- Modelled from the spec: semantic_version.SimpleSpec(s); none when the
constraint expression is malformed (ValueError in the library). The empty
string splits into one empty clause and fails: the matcher does not define
an empty constraint as always true (the spec says empty constraints must be
special-cased by the caller, and malformed constraints are fatal). -/
def simpleSpecParse (s : String) : Option SimpleSpec :=
  parseClauses (splitOnChar ',' s.data)

/-- Does a version satisfy one clause? caret is the compatible-release range
up to the next major version, tilde up to the next minor version. -/
def clauseMatches (c : SpecClause) (v : SemVer) : Bool :=
  match c.op with
  | .lt => semverLt v c.ver
  | .le => semverLt v c.ver || semverEqP v c.ver
  | .eq => semverEqP v c.ver
  | .ne => !(semverEqP v c.ver)
  | .ge => semverLt c.ver v || semverEqP v c.ver
  | .gt => semverLt c.ver v
  | .caret => (semverLt c.ver v || semverEqP v c.ver) &&
      semverLt v ⟨c.ver.major + 1, 0, 0, [], []⟩
  | .tilde => (semverLt c.ver v || semverEqP v c.ver) &&
      semverLt v ⟨c.ver.major, c.ver.minor + 1, 0, [], []⟩

/-- semver in spec: the version satisfies every clause (AND-composition). -/
def specMatches (sp : SimpleSpec) (v : SemVer) : Bool :=
  sp.all (fun c => clauseMatches c v)

/-- Does the installed version string lie within an already-parsed constraint?
An unparsable version never matches. -/
def versionInSpec (version : String) (sp : SimpleSpec) : Bool :=
  match versionParse version with
  | none => false
  | some v => specMatches sp v

/-- The Python exception kinds that can escape the modelled resolver and
downloader code paths. -/
inductive PyErr where
  | valueError
  | typeError
  | stopIteration
deriving DecidableEq

/-- check_package_version(version, spec_version): SimpleSpec(spec_version) is
constructed outside any handler, so a malformed (in particular empty)
constraint raises ValueError to the caller; Version(version) is wrapped in
try/except ValueError and an unparsable installed version returns False;
otherwise the result is the range test. -/
def check_package_version (version spec_version : String) : Except PyErr Bool :=
  match simpleSpecParse spec_version with
  | none => .error .valueError
  | some spec =>
    match versionParse version with
    | none => .ok false
    | some semver => .ok (specMatches spec semver)

/-- The user-visible diagnostics the resolver can emit (click.secho calls).
The install-instruction hint covers both of its message variants (apt-get or
apio install). -/
inductive Diag where
  | pathError (name : String)
  | versionWarning (name version specVersion : String)
  | installInstructions (name : String)
deriving DecidableEq

/-- check_package(name, version, spec_version, path): the per-package
satisfaction check, returning its boolean verdict and the diagnostics it
emits. The gtkwave package on a non-windows platform is always satisfied,
before the path is even looked at. The path argument is bin_dir.get(package),
which is None for an unknown package name: os.path.isdir(None) then raises
TypeError. isWindows models platform.system() == "Windows"; pathExists models
os.path.isdir. -/
def check_package (name version spec_version : String) (path : Option String)
    (isWindows : Bool) (pathExists : String → Bool) : Except PyErr (Bool × List Diag) :=
  if name == "gtkwave" && !isWindows then
    .ok (true, [])
  else
    match path with
    | none => .error .typeError
    | some p =>
      if !pathExists p then
        .ok (false, [.pathError name, .installInstructions name])
      else
        match check_package_version version spec_version with
        | .error e => .error e
        | .ok false =>
          .ok (false, [.versionWarning name version spec_version,
                       .installInstructions name])
        | .ok true => .ok (true, [])

/-- One iteration of the resolver loop: check_package applied to the loop
package, with version = installed_packages.get(package, {}).get("version", "")
and spec_version = spec_packages.get(package, "") modelled by the total
lookup functions installed and specs (defaulting to ""). -/
def resolveCheckOne (installed specs : String → String) (isWindows : Bool)
    (pathExists : String → Bool) (bin : PkgTable) (package : String) :
    Except PyErr (Bool × List Diag) :=
  check_package package (installed package) (specs package)
    (bin.find? package) isWindows pathExists

/-- The check loop of resolve_packages: check &= check_package(...) over the
package list, in order, collecting diagnostics; a raised exception aborts the
loop immediately, but a False verdict does not. -/
def checkAll (installed specs : String → String) (isWindows : Bool)
    (pathExists : String → Bool) (bin : PkgTable) :
    List String → Except PyErr (Bool × List Diag)
  | [] => .ok (true, [])
  | p :: ps =>
    match resolveCheckOne installed specs isWindows pathExists bin p with
    | .error e => .error e
    | .ok (b, ds) =>
      match checkAll installed specs isWindows pathExists bin ps with
      | .error e => .error e
      | .ok (b2, ds2) => .ok (b && b2, ds ++ ds2)

/-- resolve_packages(packages, installed_packages, spec_packages): checks every
required package and, only when every check passed, composes the environment;
otherwise (or when a check raises) the environment is returned untouched.
The result pairs the returned value (or the escaping exception) with the
final process environment. -/
def resolve_packages (packages : List String) (installed specs : String → String)
    (isWindows : Bool) (pathExists : String → Bool) (pkgHomeDir : String)
    (env : Env) : Except PyErr (Bool × List Diag) × Env :=
  let base := get_base_dir pathExists pkgHomeDir
  let bin := get_bin_dir_table base
  match checkAll installed specs isWindows pathExists bin packages with
  | .error e => (.error e, env)
  | .ok (ck, ds) =>
    (.ok (ck, ds), if ck then set_env_variables base bin isWindows env else env)

/-- Did this package's check return (without raising) verdict True? -/
def pkgPassed (installed specs : String → String) (isWindows : Bool)
    (pathExists : String → Bool) (bin : PkgTable) (package : String) : Bool :=
  match resolveCheckOne installed specs isWindows pathExists bin package with
  | .ok (b, _) => b
  | .error _ => false

/-- The diagnostics this package's check emits (none when it raises). -/
def pkgDiags (installed specs : String → String) (isWindows : Bool)
    (pathExists : String → Bool) (bin : PkgTable) (package : String) : List Diag :=
  match resolveCheckOne installed specs isWindows pathExists bin package with
  | .ok (_, ds) => ds
  | .error _ => []

/-- Did the computation return normally (no exception)? -/
def okB {ε α : Type} : Except ε α → Bool
  | .ok _ => true
  | .error _ => false

/-- A file on disk as the downloader sees it: the chunks written to it, in
order, and its modification timestamp (seconds since the epoch). -/
structure FileData where
  chunks : List (List Nat)
  mtime : Int
deriving DecidableEq

/-- The downloader's view of the filesystem: an association list from path to
file data. -/
def FS : Type := List (String × FileData)

instance : DecidableEq FS := by
  unfold FS
  infer_instance

/-- Data of the file at a path, when it exists. -/
def FS.get? (fs : FS) (p : String) : Option FileData :=
  match fs with
  | [] => none
  | (q, d) :: rest => if q == p then some d else FS.get? rest p

/-- Creates or overwrites the file at a path. -/
def FS.set (fs : FS) (p : String) (d : FileData) : FS :=
  (p, d) :: fs.filter (fun e => !(e.1 == p))

/-- Modification timestamp of the file at a path, when it exists. -/
def FS.mtimeOf (fs : FS) (p : String) : Option Int :=
  (fs.get? p).map FileData.mtime

/-- change_filemtime(path, time) from util.py: os.utime(path, (time, time)),
setting both timestamps of an existing file (every call site passes a file
that exists). -/
def change_filemtime (fs : FS) (path : String) (time : Int) : FS :=
  match fs.get? path with
  | none => fs
  | some d => fs.set path { d with mtime := time }

/-- What email.utils.parsedate_tz returns for an RFC-2822 date: the ten-tuple
(year, month, day, hour, minute, second, 0, 1, -1, tzoffset); the three
constant slots carry no information and are omitted, the trailing timezone
offset (seconds, None when the zone is unrecognized) is the tzoffset field. -/
structure DateTuple where
  year : Nat
  month : Nat
  day : Nat
  hour : Nat
  minute : Nat
  second : Nat
  tzoffset : Option Int
deriving DecidableEq

/-- Month number of an RFC-2822 month name. -/
def monthNum (s : String) : Option Nat :=
  if s == "Jan" then some 1
  else if s == "Feb" then some 2
  else if s == "Mar" then some 3
  else if s == "Apr" then some 4
  else if s == "May" then some 5
  else if s == "Jun" then some 6
  else if s == "Jul" then some 7
  else if s == "Aug" then some 8
  else if s == "Sep" then some 9
  else if s == "Oct" then some 10
  else if s == "Nov" then some 11
  else if s == "Dec" then some 12
  else none

/-- A loose numeric token: non-empty and all digits (leading zeros allowed,
as in two-digit day or time fields). -/
def parseNumLoose (l : List Char) : Option Nat :=
  if !l.isEmpty && l.all Char.isDigit then some (digitsToNat l) else none

/-- Parses the HH:MM:SS time-of-day token. -/
def parseTimeHMS (l : List Char) : Option (Nat × Nat × Nat) :=
  match splitOnChar ':' l with
  | [h, m, s] =>
    match parseNumLoose h, parseNumLoose m, parseNumLoose s with
    | some hh, some mm, some ss => some (hh, mm, ss)
    | _, _, _ => none
  | _ => none

/-- Timezone token: GMT/UT/UTC/Z are zero, a signed four-digit +HHMM or -HHMM
is an explicit offset in seconds, anything else is an unrecognized zone
(offset none, as parsedate_tz reports). -/
def parseZone (l : List Char) : Option Int :=
  let s := String.mk l
  if s == "GMT" || s == "UT" || s == "UTC" || s == "Z" then some 0
  else
    match l with
    | '+' :: r =>
      match parseNumLoose r with
      | some n => some ((n / 100 : Nat) * 3600 + (n % 100) * 60 : Nat)
      | none => none
    | '-' :: r =>
      match parseNumLoose r with
      | some n => some (-(((n / 100 : Nat) * 3600 + (n % 100) * 60 : Nat) : Int))
      | none => none
    | _ => none

/-- Modelled from the spec: email.utils.parsedate_tz on an RFC-2822 date such
as Wed, 21 Oct 2015 07:28:00 GMT (the stdlib parser is not part of this
repository). The tokens are split on whitespace, an optional leading weekday
token ending in a comma is dropped, and day, month name, year, HH:MM:SS and
zone follow. none models the parser returning None. -/
def parsedate_tz (s : String) : Option DateTuple :=
  let parts := (splitOnChar ' ' s.data).filter (fun p => !p.isEmpty)
  let parts := match parts with
    | w :: rest => if w.getLastD ' ' == ',' then rest else parts
    | [] => []
  match parts with
  | [d, mon, y, time, zone] =>
    match parseNumLoose d, monthNum (String.mk mon), parseNumLoose y,
        parseTimeHMS time with
    | some day, some month, some year, some (hh, mm, ss) =>
      some ⟨year, month, day, hh, mm, ss, parseZone zone⟩
    | _, _, _, _ => none
  | _ => none

/-- Days from 1970-01-01 to the given civil date (proleptic Gregorian),
computed with the standard era decomposition; valid for the post-1970 dates
this program meets. -/
def daysFromCivil (y m d : Nat) : Int :=
  let y2 := if m ≤ 2 then y - 1 else y
  let era := y2 / 400
  let yoe := y2 % 400
  let mp := (m + 9) % 12
  let doy := (153 * mp + 2) / 5 + d - 1
  let doe := yoe * 365 + yoe / 4 - yoe / 100 + doy
  ((era * 146097 + doe : Nat) : Int) - 719468

/-- Seconds since the epoch of the broken-down fields read as UTC. -/
def epochOfDateFields (t : DateTuple) : Int :=
  daysFromCivil t.year t.month t.day * 86400 +
    ((t.hour * 3600 + t.minute * 60 + t.second : Nat) : Int)

/-- Modelled from the spec: time.mktime interprets the broken-down fields as
LOCAL wall-clock time. localOffset is the local timezone's offset east of UTC
in seconds (DST folded in), so the returned epoch timestamp is the UTC reading
of the fields minus that offset. -/
def mktime (t : DateTuple) (localOffset : Int) : Int :=
  epochOfDateFields t - localOffset

/-- The wrapped HTTP response behind requests.get(url, stream=True): status
code, the content-length header (parsed; none when absent), the last-modified
header, and the body as the CHUNK_SIZE-sized chunks iter_content yields. -/
structure HttpResponse where
  statusCode : Nat
  contentLength : Option Nat
  lastModified : Option String
  body : List (List Nat)
deriving DecidableEq

/-- The exception FDUnrecognizedStatusCode raised by the downloader
constructor, carrying the status code and the URL. -/
inductive ApioException where
  | FDUnrecognizedStatusCode (statusCode : Nat) (url : String)
deriving DecidableEq

/-- FileDownloader.CHUNK_SIZE. -/
def CHUNK_SIZE : Nat := 1024

/-- Exact ceiling division, the value of int(ceil(size / float(CHUNK_SIZE)))
for the realistic sizes where the float detour is exact. -/
def ceilDiv (a b : Nat) : Nat :=
  (a + b - 1) / b

/-- url.split("/")[-1]: the final path segment of the URL. -/
def lastSegment (url : String) : String :=
  String.mk ((splitOnChar '/' url.data).getLastD [])

/-- A successfully constructed FileDownloader: URL, file name, destination
path and the held connection/response. -/
structure FileDownloader where
  url : String
  fname : String
  destination : String
  request : HttpResponse
deriving DecidableEq

/-- FileDownloader.__init__(url, dest_dir): derives the file name from the
URL's last segment, the destination from dest_dir when given, performs the
handshake (the response is the resp argument) and raises
FDUnrecognizedStatusCode on any status other than 200, so no downloader
object is returned then. __init__ performs no filesystem operation, so the
filesystem is passed through unchanged on both outcomes. -/
def FileDownloader.init (url : String) (destDir : Option String)
    (resp : HttpResponse) (fs : FS) : Except ApioException FileDownloader × FS :=
  let fname := lastSegment url
  let destination := match destDir with
    | none => fname
    | some d => pathJoin d fname
  if resp.statusCode ≠ 200 then
    (.error (.FDUnrecognizedStatusCode resp.statusCode url), fs)
  else
    (.ok { url := url, fname := fname, destination := destination, request := resp }, fs)

/-- FileDownloader.get_lmtime(): the last-modified header when present. -/
def FileDownloader.get_lmtime (d : FileDownloader) : Option String :=
  d.request.lastModified

/-- FileDownloader.get_size(): int(headers.get("content-length")); an absent
header makes int(None) raise TypeError. -/
def FileDownloader.get_size (d : FileDownloader) : Except PyErr Nat :=
  match d.request.contentLength with
  | none => .error .typeError
  | some n => .ok n

/-- FileDownloader._preserve_filemtime(lmdate): when a last-modified value is
present, parses it and sets the destination's mtime to
mktime(timedata[:9]) - the slice DISCARDS the parsed timezone offset, so the
wall-clock fields are interpreted in the local timezone; an unparsable date
makes the None[:9] subscript raise TypeError. When no value is present the
file's timestamps are left alone. -/
def FileDownloader._preserve_filemtime (d : FileDownloader)
    (lmdate : Option String) (localOffset : Int) (fs : FS) :
    Except (PyErr × FS) FS :=
  match lmdate with
  | none => .ok fs
  | some s =>
    match parsedate_tz s with
    | none => .error (.typeError, fs)
    | some t => .ok (change_filemtime fs d.destination (mktime t localOffset))

/-- FileDownloader.start(): opens the destination for binary write (creating
or truncating it - its mtime becomes the download time) BEFORE the declared
size is read; computes the chunk count ceil(size / CHUNK_SIZE); writes that
many chunks in order (next on an exhausted body raises StopIteration after
the available chunks were written); then closes the connection and preserves
the last-modified time. Errors carry the filesystem as left behind. -/
def FileDownloader.start (d : FileDownloader) (downloadMtime localOffset : Int)
    (fs : FS) : Except (PyErr × FS) FS :=
  let fs1 := fs.set d.destination ⟨[], downloadMtime⟩
  match d.get_size with
  | .error e => .error (e, fs1)
  | .ok size =>
    let chunks := ceilDiv size CHUNK_SIZE
    if chunks ≤ d.request.body.length then
      let fs2 := fs1.set d.destination ⟨d.request.body.take chunks, downloadMtime⟩
      d._preserve_filemtime d.get_lmtime localOffset fs2
    else
      .error (.stopIteration, fs1.set d.destination ⟨d.request.body, downloadMtime⟩)

/-- The process environment slice used by the concrete witnesses: an inherited
search path of one entry and the four extra variables unset. -/
def envUsr : Env := ⟨["/usr/bin"], none, none, none, none⟩

/-- Base-dir table with no package installed (all probes failed). -/
def baseC2 : PkgTable := ⟨"", "", ""⟩

/-- Base-dir table with only the primary package installed. -/
def baseW6 : PkgTable := ⟨"/h/packages/tools-oss-cad-suite", "", ""⟩

/-- Handshake response with status 404 for the constructor witness. -/
def respW7 : HttpResponse := ⟨404, none, none, []⟩

/-- A one-chunk download session carrying the RFC-2822 example header. -/
def dlC8 : FileDownloader :=
  ⟨"http://host/t.bin", "t.bin", "t.bin",
    ⟨200, some 1, some "Wed, 21 Oct 2015 07:28:00 GMT", [[7]]⟩⟩

/-- A download session whose response lacks the content-length header. -/
def dlW10 : FileDownloader :=
  ⟨"http://host/u.bin", "u.bin", "u.bin", ⟨200, none, none, [[1]]⟩⟩

theorem FS.get?_set_self (fs : FS) (p : String) (d : FileData) :
    (fs.set p d).get? p = some d := by
  simp [FS.set, FS.get?]

theorem pathJoin_ne_empty (b c : String) (hc : c ≠ "") : pathJoin b c ≠ "" := by
  unfold pathJoin
  split
  · exact hc
  · intro h
    have hlen := congrArg String.length h
    rw [String.length_append, String.length_append] at hlen
    have h1 : ("/" : String).length = 1 := rfl
    have h0 : ("" : String).length = 0 := rfl
    omega

theorem resolveCheckOne_ok_shape (installed specs : String → String) (isWin : Bool)
    (pathEx : String → Bool) (bin : PkgTable) (p : String) (b : Bool) (ds : List Diag)
    (h : resolveCheckOne installed specs isWin pathEx bin p = .ok (b, ds)) :
    (b = true ∧ ds = []) ∨ (b = false ∧ ds ≠ []) := by
  unfold resolveCheckOne check_package at h
  split at h
  · simp only [Except.ok.injEq, Prod.mk.injEq] at h
    exact Or.inl ⟨h.1.symm, h.2.symm⟩
  · split at h
    · exact absurd h (by simp)
    · split at h
      · simp only [Except.ok.injEq, Prod.mk.injEq] at h
        refine Or.inr ⟨h.1.symm, ?_⟩
        rw [← h.2]
        simp
      · split at h
        · exact absurd h (by simp)
        · simp only [Except.ok.injEq, Prod.mk.injEq] at h
          refine Or.inr ⟨h.1.symm, ?_⟩
          rw [← h.2]
          simp
        · simp only [Except.ok.injEq, Prod.mk.injEq] at h
          exact Or.inl ⟨h.1.symm, h.2.symm⟩

theorem checkAll_ok (installed specs : String → String) (isWin : Bool)
    (pathEx : String → Bool) (bin : PkgTable) (ps : List String)
    (h : ∀ p ∈ ps, okB (resolveCheckOne installed specs isWin pathEx bin p) = true) :
    checkAll installed specs isWin pathEx bin ps =
      .ok (ps.all (pkgPassed installed specs isWin pathEx bin),
           ps.flatMap (pkgDiags installed specs isWin pathEx bin)) := by
  induction ps with
  | nil => simp [checkAll]
  | cons p ps ih =>
    have hp := h p (List.mem_cons_self p ps)
    have hrest := ih (fun q hq => h q (List.mem_cons_of_mem p hq))
    cases hres : resolveCheckOne installed specs isWin pathEx bin p with
    | error e => rw [hres] at hp; simp [okB] at hp
    | ok r =>
      obtain ⟨b, ds⟩ := r
      simp [checkAll, hres, hrest, pkgPassed, pkgDiags]

/-- C1 (counterexample): the resolver does NOT special-case an empty
constraint. A package whose installation directory exists and whose required
constraint is the empty string is not judged satisfied: the empty constraint
is passed to the version matcher, whose constraint parse raises ValueError
out of check_package. -/
theorem empty_constraint_not_special_cased_cex :
    check_package "foo" "1.0.0" "" (some "/p") false (fun _ => true) =
      .error .valueError
    ∧ check_package "foo" "1.0.0" "" (some "/p") false (fun _ => true) ≠
        .ok (true, [])
    ∧ check_package_version "1.0.0" "" = .error .valueError := by
  decide

/-- C1 (amended): for a package that is not the gtkwave/non-windows special
case, and a well-formed (hence non-empty) constraint, the per-package check
returns normally and is satisfied iff the installation directory exists AND
the installed version parses and lies within the constraint range; an empty
constraint, however, is passed to the version matcher and raises ValueError
whenever the directory check is reached. -/
theorem package_satisfaction_rule_amended (name version spec_version p : String)
    (isWin : Bool) (pathEx : String → Bool)
    (hng : (name == "gtkwave" && !isWin) = false) :
    (∀ sp, simpleSpecParse spec_version = some sp →
      check_package name version spec_version (some p) isWin pathEx =
        .ok (pathEx p && versionInSpec version sp,
             if pathEx p = false then
               [Diag.pathError name, Diag.installInstructions name]
             else if versionInSpec version sp then []
             else [Diag.versionWarning name version spec_version,
                   Diag.installInstructions name]))
    ∧ (spec_version = "" → pathEx p = true →
      check_package name version spec_version (some p) isWin pathEx =
        .error .valueError) := by
  constructor
  · intro sp hs
    unfold check_package
    cases hpe : pathEx p with
    | false => simp [hng, hpe]
    | true =>
      have hv : check_package_version version spec_version =
          .ok (versionInSpec version sp) := by
        unfold check_package_version versionInSpec
        rw [hs]
        cases versionParse version <;> rfl
      cases hm : versionInSpec version sp with
      | false => rw [hm] at hv; simp [hng, hpe, hv, hm]
      | true => rw [hm] at hv; simp [hng, hpe, hv, hm]
  · intro h0 hpt
    subst h0
    have hcv : check_package_version version "" = .error .valueError := by
      unfold check_package_version
      have hsp : simpleSpecParse "" = none := by decide
      rw [hsp]
    unfold check_package
    simp [hng, hpt, hcv]

/-- C1 (witness for the amended rule): a package with an existing directory,
installed version 1.0.0 and well-formed constraint >=1.0.0 is satisfied. -/
theorem package_satisfaction_rule_amended_witness :
    (("oss-cad-suite" == "gtkwave" && !false) = false)
    ∧ check_package "oss-cad-suite" "1.0.0" ">=1.0.0" (some "/p") false
        (fun _ => true) = .ok (true, []) := by
  refine ⟨by decide, ?_⟩
  have h := (package_satisfaction_rule_amended "oss-cad-suite" "1.0.0" ">=1.0.0"
      "/p" false (fun _ => true) (by decide)).1
      [⟨CmpOp.ge, ⟨1, 0, 0, [], []⟩⟩] (by decide)
  exact h.trans (by decide)

/-- C2 (code bug): on the windows platform, the gtkwave and icoprog helper
prepends are NOT guarded by installation state. With no package installed
(all base dirs empty) the tested bin_dir entries are the non-empty string
"bin", so both degenerate entries are prepended to the search path anyway,
contradicting the code's own comment that the package is added only if
installed (the guard reads the bin_dir table, whose entries are never empty,
instead of the base_dir table). -/
theorem windows_helper_prepend_ignores_install_state :
    baseC2.gtkwave = "" ∧ baseC2.icoprog = ""
    ∧ (get_bin_dir_table baseC2).gtkwave = "bin"
    ∧ (get_bin_dir_table baseC2).icoprog = "bin"
    ∧ (set_env_variables baseC2 (get_bin_dir_table baseC2) true envUsr).PATH =
        ["bin", "bin", "/usr/bin"] := by
  decide

/-- C3: whenever every per-package check returns normally and at least one
required package fails its check, resolve_packages returns False and the
process environment - the search path and the four extra variables - is
exactly the environment it was given: EnvironmentComposer is never invoked. -/
theorem resolve_failure_leaves_env_untouched (packages : List String)
    (installed specs : String → String) (isWin : Bool)
    (pathEx : String → Bool) (pkgHomeDir : String) (env : Env)
    (hall : ∀ p ∈ packages, okB (resolveCheckOne installed specs isWin pathEx
        (get_bin_dir_table (get_base_dir pathEx pkgHomeDir)) p) = true)
    (hfail : ∃ p ∈ packages, pkgPassed installed specs isWin pathEx
        (get_bin_dir_table (get_base_dir pathEx pkgHomeDir)) p = false) :
    resolve_packages packages installed specs isWin pathEx pkgHomeDir env =
      (.ok (false, packages.flatMap (pkgDiags installed specs isWin pathEx
          (get_bin_dir_table (get_base_dir pathEx pkgHomeDir)))), env) := by
  have hck := checkAll_ok installed specs isWin pathEx
      (get_bin_dir_table (get_base_dir pathEx pkgHomeDir)) packages hall
  have hallf : packages.all (pkgPassed installed specs isWin pathEx
      (get_bin_dir_table (get_base_dir pathEx pkgHomeDir))) = false := by
    obtain ⟨p, hp, hf⟩ := hfail
    exact List.all_eq_false.mpr ⟨p, hp, by simp [hf]⟩
  simp [resolve_packages, hck, hallf]

/-- C3 (witness): one required package, not installed; resolve returns False
with that package's diagnostics and the environment passed in. -/
theorem resolve_failure_leaves_env_untouched_witness :
    resolve_packages ["oss-cad-suite"] (fun _ => "") (fun _ => "") false
        (fun _ => false) "/h" envUsr =
      (.ok (false, [Diag.pathError "oss-cad-suite",
                    Diag.installInstructions "oss-cad-suite"]), envUsr) := by
  have h := resolve_failure_leaves_env_untouched ["oss-cad-suite"]
      (fun _ => "") (fun _ => "") false (fun _ => false) "/h" envUsr
      (by decide) (by decide)
  exact h.trans (by decide)

/-- C4: when every per-package check returns normally, the resolver checks
every required package with no short-circuiting: the verdict is the AND over
all packages and the emitted diagnostics are the in-order concatenation of
every package's own diagnostics (so a package after a failure still
contributes); moreover a package emits diagnostics iff it failed its check. -/
theorem resolve_checks_all_and_reports_failing (packages : List String)
    (installed specs : String → String) (isWin : Bool)
    (pathEx : String → Bool) (pkgHomeDir : String) (env : Env)
    (hall : ∀ p ∈ packages, okB (resolveCheckOne installed specs isWin pathEx
        (get_bin_dir_table (get_base_dir pathEx pkgHomeDir)) p) = true) :
    (resolve_packages packages installed specs isWin pathEx pkgHomeDir env).1 =
      .ok (packages.all (pkgPassed installed specs isWin pathEx
            (get_bin_dir_table (get_base_dir pathEx pkgHomeDir))),
           packages.flatMap (pkgDiags installed specs isWin pathEx
            (get_bin_dir_table (get_base_dir pathEx pkgHomeDir))))
    ∧ ∀ p ∈ packages,
        (pkgPassed installed specs isWin pathEx
            (get_bin_dir_table (get_base_dir pathEx pkgHomeDir)) p = false
          ↔ pkgDiags installed specs isWin pathEx
            (get_bin_dir_table (get_base_dir pathEx pkgHomeDir)) p ≠ []) := by
  have hck := checkAll_ok installed specs isWin pathEx
      (get_bin_dir_table (get_base_dir pathEx pkgHomeDir)) packages hall
  constructor
  · simp only [resolve_packages, hck]
  · intro p hp
    have hok := hall p hp
    cases hres : resolveCheckOne installed specs isWin pathEx
        (get_bin_dir_table (get_base_dir pathEx pkgHomeDir)) p with
    | error e => rw [hres] at hok; simp [okB] at hok
    | ok r =>
      obtain ⟨b, ds⟩ := r
      have hsh := resolveCheckOne_ok_shape _ _ _ _ _ _ _ _ hres
      rcases hsh with ⟨hb, hds⟩ | ⟨hb, hds⟩ <;>
        subst hb <;> simp [pkgPassed, pkgDiags, hres, hds]

/-- C4 (witness): two required packages, oss-cad-suite missing and icoprog
installed at a satisfying version; the result is False and the diagnostics
are exactly the missing package's. -/
theorem resolve_checks_all_and_reports_failing_witness :
    (resolve_packages ["oss-cad-suite", "icoprog"] (fun _ => "1.2.0")
        (fun _ => ">=1.2.0") false
        (fun s => s == "/h/packages/tool-icoprog" ||
                  s == "/h/packages/tool-icoprog/bin") "/h" envUsr).1 =
      .ok (false, [Diag.pathError "oss-cad-suite",
                   Diag.installInstructions "oss-cad-suite"]) := by
  have h := (resolve_checks_all_and_reports_failing ["oss-cad-suite", "icoprog"]
      (fun _ => "1.2.0") (fun _ => ">=1.2.0") false
      (fun s => s == "/h/packages/tool-icoprog" ||
                s == "/h/packages/tool-icoprog/bin") "/h" envUsr (by decide)).1
  exact h.trans (by decide)

/-- C5: on any platform other than windows, the gtkwave package is judged
satisfied by check_package whatever its installed version, constraint or
path - even when no directory for it exists at all. -/
theorem gtkwave_always_satisfied_non_windows (version spec_version : String)
    (path : Option String) (pathEx : String → Bool) :
    check_package "gtkwave" version spec_version path false pathEx =
      .ok (true, []) := rfl

/-- C6: whenever the primary oss-cad-suite package is installed, the composed
search path starts with its binary directory, immediately followed by its
shared-library directory installationDir/lib, ahead of every other entry;
and the four extra environment variables are set to the fixed lib/ivl,
share/icebox, share/trellis and share/yosys subdirectories of its
installation directory, all non-empty. -/
theorem primary_package_front_of_path (base : PkgTable) (isWin : Bool)
    (env : Env) (h : base.ossCadSuite ≠ "") :
    ((set_env_variables base (get_bin_dir_table base) isWin env).PATH.take 2 =
      [pathJoin base.ossCadSuite BIN, pathJoin base.ossCadSuite "lib"])
    ∧ (set_env_variables base (get_bin_dir_table base) isWin env).IVL =
        some (pathJoin (pathJoin base.ossCadSuite "lib") "ivl")
    ∧ (set_env_variables base (get_bin_dir_table base) isWin env).ICEBOX =
        some (pathJoin (pathJoin base.ossCadSuite "share") "icebox")
    ∧ (set_env_variables base (get_bin_dir_table base) isWin env).TRELLIS =
        some (pathJoin (pathJoin base.ossCadSuite "share") "trellis")
    ∧ (set_env_variables base (get_bin_dir_table base) isWin env).YOSYS_LIB =
        some (pathJoin (pathJoin base.ossCadSuite "share") "yosys")
    ∧ pathJoin (pathJoin base.ossCadSuite "lib") "ivl" ≠ ""
    ∧ pathJoin (pathJoin base.ossCadSuite "share") "icebox" ≠ ""
    ∧ pathJoin (pathJoin base.ossCadSuite "share") "trellis" ≠ ""
    ∧ pathJoin (pathJoin base.ossCadSuite "share") "yosys" ≠ "" := by
  refine ⟨?_, rfl, rfl, rfl, rfl,
    pathJoin_ne_empty _ _ (by decide), pathJoin_ne_empty _ _ (by decide),
    pathJoin_ne_empty _ _ (by decide), pathJoin_ne_empty _ _ (by decide)⟩
  simp [set_env_variables, get_bin_dir_table, h]

/-- C6 (witness): only the primary package installed; its bin and lib folders
head the path and the IVL variable holds the lib/ivl subdirectory. -/
theorem primary_package_front_of_path_witness :
    ((set_env_variables baseW6 (get_bin_dir_table baseW6) false envUsr).PATH.take 2 =
      ["/h/packages/tools-oss-cad-suite/bin", "/h/packages/tools-oss-cad-suite/lib"])
    ∧ (set_env_variables baseW6 (get_bin_dir_table baseW6) false envUsr).IVL =
        some "/h/packages/tools-oss-cad-suite/lib/ivl" := by
  have h := primary_package_front_of_path baseW6 false envUsr (by decide)
  exact ⟨h.1.trans (by decide), h.2.1.trans (by decide)⟩

/-- C7: any handshake status other than 200 makes the downloader constructor
fail with FDUnrecognizedStatusCode carrying that status code and the URL; no
downloader object is returned and the filesystem is untouched (no destination
file is created). -/
theorem downloader_init_non_200_fails (url : String) (destDir : Option String)
    (resp : HttpResponse) (fs : FS) (h : resp.statusCode ≠ 200) :
    FileDownloader.init url destDir resp fs =
      (.error (.FDUnrecognizedStatusCode resp.statusCode url), fs) := by
  simp [FileDownloader.init, h]

/-- C7 (witness): a 404 handshake on a concrete URL with an empty filesystem. -/
theorem downloader_init_non_200_fails_witness :
    ((404 : Nat) ≠ 200)
    ∧ FileDownloader.init "http://host/pkg.tar.gz" none respW7 [] =
        (.error (.FDUnrecognizedStatusCode 404 "http://host/pkg.tar.gz"), []) :=
  ⟨by decide, downloader_init_non_200_fails "http://host/pkg.tar.gz" none respW7 []
    (by decide)⟩

/-- C8 (counterexample): a normally-completing start() whose session carried
Last-Modified Wed, 21 Oct 2015 07:28:00 GMT does NOT set the destination
mtime to the timestamp equivalent to that header (1445412480): in a local
timezone one hour east of UTC the written mtime is 1445408880, because
mktime(timedata[:9]) discards the parsed timezone offset and reads the
wall-clock fields in local time. -/
theorem last_modified_mtime_cex :
    dlC8.start 111 3600 [] = .ok [("t.bin", ⟨[[7]], (1445408880 : Int)⟩)]
    ∧ parsedate_tz "Wed, 21 Oct 2015 07:28:00 GMT" =
        some ⟨2015, 10, 21, 7, 28, 0, some 0⟩
    ∧ epochOfDateFields ⟨2015, 10, 21, 7, 28, 0, some 0⟩ = 1445412480
    ∧ FS.mtimeOf [("t.bin", ⟨[[7]], (1445408880 : Int)⟩)] "t.bin" ≠
        some 1445412480 := by
  decide

/-- C8 (amended): after start() completes normally, if the session carried a
parsable Last-Modified header the destination file's mtime is set to mktime
of the parsed fields - the header's wall-clock time interpreted in the LOCAL
timezone (the header's own timezone offset is discarded by the [:9] slice),
equal to the header-equivalent timestamp only when the local offset equals
the header's; if the header was absent the mtime is left as the filesystem
assigned it at download time. -/
theorem preserve_filemtime_local_mktime (d : FileDownloader)
    (downloadMtime localOffset : Int) (fs fs2 : FS)
    (h : d.start downloadMtime localOffset fs = .ok fs2) :
    (∀ hdr t, d.request.lastModified = some hdr → parsedate_tz hdr = some t →
      fs2.mtimeOf d.destination = some (epochOfDateFields t - localOffset))
    ∧ (d.request.lastModified = none →
      fs2.mtimeOf d.destination = some downloadMtime) := by
  cases hcl : d.request.contentLength with
  | none => simp [FileDownloader.start, FileDownloader.get_size, hcl] at h
  | some size =>
    simp only [FileDownloader.start, FileDownloader.get_size, hcl] at h
    split at h
    · cases hlm : d.request.lastModified with
      | none =>
        simp only [FileDownloader._preserve_filemtime, FileDownloader.get_lmtime,
          hlm, Except.ok.injEq] at h
        subst h
        refine ⟨fun hdr t hhdr _ => ?_, fun _ => ?_⟩
        · exact absurd hhdr (by simp)
        · simp [FS.mtimeOf, FS.get?_set_self]
      | some hdr0 =>
        simp only [FileDownloader._preserve_filemtime, FileDownloader.get_lmtime,
          hlm] at h
        cases hpd : parsedate_tz hdr0 with
        | none => rw [hpd] at h; exact absurd h (by simp)
        | some t0 =>
          rw [hpd] at h
          simp only [Except.ok.injEq] at h
          subst h
          refine ⟨fun hdr t hhdr ht => ?_, fun hnone => ?_⟩
          · injection hhdr with hh
            subst hh
            rw [hpd] at ht
            injection ht with ht2
            subst ht2
            simp [change_filemtime, FS.get?_set_self, FS.mtimeOf, mktime]
          · exact absurd hnone (by simp)
    · exact absurd h (by simp)

/-- C8 (witness for the amended rule): the example download completes and the
written mtime is mktime of the parsed header fields at local offset +3600. -/
theorem preserve_filemtime_local_mktime_witness :
    dlC8.start 111 3600 [] = .ok [("t.bin", ⟨[[7]], (1445408880 : Int)⟩)]
    ∧ FS.mtimeOf [("t.bin", ⟨[[7]], (1445408880 : Int)⟩)] "t.bin" =
        some (epochOfDateFields ⟨2015, 10, 21, 7, 28, 0, some 0⟩ - 3600) := by
  refine ⟨by decide, ?_⟩
  exact (preserve_filemtime_local_mktime dlC8 111 3600 []
      [("t.bin", ⟨[[7]], (1445408880 : Int)⟩)] (by decide)).1
      "Wed, 21 Oct 2015 07:28:00 GMT" ⟨2015, 10, 21, 7, 28, 0, some 0⟩
      rfl (by decide)

/-- C9: for every version string that does not parse as a valid semantic
version, given a well-formed (parsable) constraint, the version check returns
False normally - the ValueError from Version() is caught and never reaches
the caller. -/
theorem malformed_version_returns_false (version spec_version : String)
    (sp : SimpleSpec) (hs : simpleSpecParse spec_version = some sp)
    (hv : versionParse version = none) :
    check_package_version version spec_version = .ok false := by
  unfold check_package_version
  rw [hs, hv]

/-- C9 (witness): the unparsable version garbage against constraint >=1.2.0. -/
theorem malformed_version_returns_false_witness :
    simpleSpecParse ">=1.2.0" = some [⟨CmpOp.ge, ⟨1, 2, 0, [], []⟩⟩]
    ∧ versionParse "garbage" = none
    ∧ check_package_version "garbage" ">=1.2.0" = .ok false :=
  ⟨by decide, by decide,
    malformed_version_returns_false "garbage" ">=1.2.0"
      [⟨CmpOp.ge, ⟨1, 2, 0, [], []⟩⟩] (by decide) (by decide)⟩

/-- C10: start() creates (or truncates) the destination file before the
declared content length is read; reading the size with no Content-Length
header raises TypeError; so a session without that header fails only after
the destination file already exists, truncated to empty, with the
download-time mtime. -/
theorem missing_content_length_fails_after_create (d : FileDownloader)
    (downloadMtime localOffset : Int) (fs : FS)
    (h : d.request.contentLength = none) :
    d.start downloadMtime localOffset fs =
      .error (.typeError, fs.set d.destination ⟨[], downloadMtime⟩)
    ∧ (fs.set d.destination ⟨[], downloadMtime⟩).get? d.destination =
        some ⟨[], downloadMtime⟩
    ∧ d.get_size = .error .typeError := by
  refine ⟨?_, FS.get?_set_self _ _ _, ?_⟩
  · simp [FileDownloader.start, FileDownloader.get_size, h]
  · simp [FileDownloader.get_size, h]

/-- C10 (witness): a concrete session with no content-length header fails
with TypeError, leaving the created empty destination file behind. -/
theorem missing_content_length_fails_after_create_witness :
    dlW10.request.contentLength = none
    ∧ dlW10.start 5 0 [] = .error (.typeError, [("u.bin", ⟨[], (5 : Int)⟩)]) := by
  refine ⟨rfl, ?_⟩
  have h := (missing_content_length_fails_after_create dlW10 5 0 [] rfl).1
  exact h.trans (by decide)

end Apio
